import Mathlib

/-!
Shallow embedding of `src/openMVG/multiview/solver_essential_three_point.cpp`
(OpenMVG three-point essential-matrix minimal solvers) over exact real
arithmetic, together with proofs of the specification claims.

The C++ `double` arithmetic is modelled by `ℝ`; `sqrt` by `Real.sqrt`.
The dynamic-width Eigen matrices `Mat2X` / `Mat3X` (points one per column)
are modelled as column maps `ℕ → Vec2` / `ℕ → Vec3`; the solvers read only
columns 0, 1, 2, exactly as the source does.  The caller-provided
`std::vector<Mat3>` output storage is modelled as a `List Mat3` and
`emplace_back` as appending to the right of that list.

The only external-library step, Eigen's `SelfAdjointEigenSolver` applied to
`AᵀA`, is modelled as an explicit parameter `eig : (Fin 4 → Fin 4 → ℝ) → Vec4`
giving the eigenvector the decomposition selects for its argument matrix;
the solver applies it to the Gram matrix `AᵀA` exactly as the source does.
-/

/-- A 2D point (a column of the source's `Mat2X`). -/
structure Vec2 where
  x : ℝ
  y : ℝ

/-- A 3D bearing vector (a column of the source's `Mat3X`). -/
structure Vec3 where
  x : ℝ
  y : ℝ
  z : ℝ

/-- A 4-vector, the nullspace vector of the upright solver. -/
structure Vec4 where
  n0 : ℝ
  n1 : ℝ
  n2 : ℝ
  n3 : ℝ

/-- Entry `j` of a `Vec4`. -/
def Vec4.get (n : Vec4) : Fin 4 → ℝ
  | 0 => n.n0
  | 1 => n.n1
  | 2 => n.n2
  | 3 => n.n3

/-- The dot product of two 4-vectors. -/
def dot4 (u v : Vec4) : ℝ :=
  u.n0 * v.n0 + u.n1 * v.n1 + u.n2 * v.n2 + u.n3 * v.n3

/-- A 3×3 real matrix (the source's fixed-size `Mat3`); field `eRC` is the
entry at row `R`, column `C`. -/
structure Mat3 where
  e00 : ℝ
  e01 : ℝ
  e02 : ℝ
  e10 : ℝ
  e11 : ℝ
  e12 : ℝ
  e20 : ℝ
  e21 : ℝ
  e22 : ℝ

namespace openMVG

/-! ### Orthographic three-point solver (`ThreePointsRelativePose`)

Each intermediate `const double` of the source is a top-level definition
taking the inputs as arguments. -/

/-- Source: `xd1 = x1.col(1) - x1.col(0)`. -/
def xd1 (x1 : ℕ → Vec2) : Vec2 := ⟨(x1 1).x - (x1 0).x, (x1 1).y - (x1 0).y⟩

/-- Source: `yd1 = x1.col(2) - x1.col(0)`. -/
def yd1 (x1 : ℕ → Vec2) : Vec2 := ⟨(x1 2).x - (x1 0).x, (x1 2).y - (x1 0).y⟩

/-- Source: `xd2 = x2.col(1) - x2.col(0)`. -/
def xd2 (x2 : ℕ → Vec2) : Vec2 := ⟨(x2 1).x - (x2 0).x, (x2 1).y - (x2 0).y⟩

/-- Source: `yd2 = x2.col(2) - x2.col(0)`. -/
def yd2 (x2 : ℕ → Vec2) : Vec2 := ⟨(x2 2).x - (x2 0).x, (x2 2).y - (x2 0).y⟩

/-- Source: `denom = xd1.x() * yd1.y() - xd1.y() * yd1.x()`. -/
def denom (x1 : ℕ → Vec2) : ℝ :=
  (xd1 x1).x * (yd1 x1).y - (xd1 x1).y * (yd1 x1).x

/-- Source: `aac = ( xd1.y() * yd2.x() - xd2.x() * yd1.y() ) / denom`. -/
noncomputable def aac (x1 x2 : ℕ → Vec2) : ℝ :=
  ((xd1 x1).y * (yd2 x2).x - (xd2 x2).x * (yd1 x1).y) / denom x1

/-- Source: `aad = ( xd1.y() * yd2.y() - xd2.y() * yd1.y() ) / denom`. -/
noncomputable def aad (x1 x2 : ℕ → Vec2) : ℝ :=
  ((xd1 x1).y * (yd2 x2).y - (xd2 x2).y * (yd1 x1).y) / denom x1

/-- Source: `bbc = ( xd2.x() * yd1.x() - xd1.x() * yd2.x() ) / denom`. -/
noncomputable def bbc (x1 x2 : ℕ → Vec2) : ℝ :=
  ((xd2 x2).x * (yd1 x1).x - (xd1 x1).x * (yd2 x2).x) / denom x1

/-- Source: `bbd = ( xd2.y() * yd1.x() - xd1.x() * yd2.y() ) / denom`. -/
noncomputable def bbd (x1 x2 : ℕ → Vec2) : ℝ :=
  ((xd2 x2).y * (yd1 x1).x - (xd1 x1).x * (yd2 x2).y) / denom x1

/-- Source: `aac_sq = aac * aac`. -/
noncomputable def aac_sq (x1 x2 : ℕ → Vec2) : ℝ := aac x1 x2 * aac x1 x2

/-- Source: `dd_2 = - aac_sq + aad * aad - bbc * bbc + bbd * bbd`. -/
noncomputable def dd_2 (x1 x2 : ℕ → Vec2) : ℝ :=
  - aac_sq x1 x2 + aad x1 x2 * aad x1 x2 - bbc x1 x2 * bbc x1 x2 + bbd x1 x2 * bbd x1 x2

/-- Source: `dd_1c = 2.0 * aac * aad + 2.0 * bbc * bbd`. -/
noncomputable def dd_1c (x1 x2 : ℕ → Vec2) : ℝ :=
  2 * aac x1 x2 * aad x1 x2 + 2 * bbc x1 x2 * bbd x1 x2

/-- Source: `dd_0 = aac_sq + bbc * bbc - 1.0`. -/
noncomputable def dd_0 (x1 x2 : ℕ → Vec2) : ℝ := aac_sq x1 x2 + bbc x1 x2 * bbc x1 x2 - 1

/-- Source: `d4_4 = dd_1c * dd_1c + dd_2 * dd_2`. -/
noncomputable def d4_4 (x1 x2 : ℕ → Vec2) : ℝ :=
  dd_1c x1 x2 * dd_1c x1 x2 + dd_2 x1 x2 * dd_2 x1 x2

/-- Source: `d4_2 = -dd_1c * dd_1c + 2.0 * dd_0 * dd_2`. -/
noncomputable def d4_2 (x1 x2 : ℕ → Vec2) : ℝ :=
  - dd_1c x1 x2 * dd_1c x1 x2 + 2 * dd_0 x1 x2 * dd_2 x1 x2

/-- Source: `d4_0 = dd_0 * dd_0`. -/
noncomputable def d4_0 (x1 x2 : ℕ → Vec2) : ℝ := dd_0 x1 x2 * dd_0 x1 x2

/-- The discriminant `d4_2 * d4_2 - 4.0 * d4_4 * d4_0` under the root in `tmp`. -/
noncomputable def disc (x1 x2 : ℕ → Vec2) : ℝ :=
  d4_2 x1 x2 * d4_2 x1 x2 - 4 * d4_4 x1 x2 * d4_0 x1 x2

/-- Source: `tmp = sqrt( d4_2 * d4_2 - 4.0 * d4_4 * d4_0 )`. -/
noncomputable def tmp (x1 x2 : ℕ → Vec2) : ℝ := Real.sqrt (disc x1 x2)

/-- Source: `tmp_csol = - aac_sq + aad * aad - bbc * bbc + bbd * bbd`. -/
noncomputable def tmp_csol (x1 x2 : ℕ → Vec2) : ℝ :=
  - aac_sq x1 x2 + aad x1 x2 * aad x1 x2 - bbc x1 x2 * bbc x1 x2 + bbd x1 x2 * bbd x1 x2

/-- Source: `dsol = sqrt( - root / d4_4 / 2.0 )` inside `ComputeEssentialMatrix`. -/
noncomputable def dsol (x1 x2 : ℕ → Vec2) (root : ℝ) : ℝ :=
  Real.sqrt (- root / d4_4 x1 x2 / 2)

/-- Source: `csol` inside `ComputeEssentialMatrix`. -/
noncomputable def csol (x1 x2 : ℕ → Vec2) (root : ℝ) : ℝ :=
  - (tmp_csol x1 x2 * dsol x1 x2 root * dsol x1 x2 root
       + aac_sq x1 x2 + bbc x1 x2 * bbc x1 x2 - 1) /
    (2 * aac x1 x2 * aad x1 x2 * dsol x1 x2 root
       + 2 * bbc x1 x2 * bbd x1 x2 * dsol x1 x2 root)

/-- Source: `asol = aac * csol + aad * dsol` inside `ComputeEssentialMatrix`. -/
noncomputable def asol (x1 x2 : ℕ → Vec2) (root : ℝ) : ℝ :=
  aac x1 x2 * csol x1 x2 root + aad x1 x2 * dsol x1 x2 root

/-- Source: `bsol = bbc * csol + bbd * dsol` inside `ComputeEssentialMatrix`. -/
noncomputable def bsol (x1 x2 : ℕ → Vec2) (root : ℝ) : ℝ :=
  bbc x1 x2 * csol x1 x2 root + bbd x1 x2 * dsol x1 x2 root

/-- Source: `esol = - asol * x1(0,0) - bsol * x1(1,0) - csol * x2(0,0) - dsol * x2(1,0)`
inside `ComputeEssentialMatrix`. -/
noncomputable def esol (x1 x2 : ℕ → Vec2) (root : ℝ) : ℝ :=
  - asol x1 x2 root * (x1 0).x - bsol x1 x2 root * (x1 0).y
  - csol x1 x2 root * (x2 0).x - dsol x1 x2 root * (x2 0).y

/-- The inner lambda `ComputeEssentialMatrix`: assembles
`(0, 0, asol; 0, 0, bsol; csol, dsol, esol)` for a given quartic root. -/
noncomputable def ComputeEssentialMatrix (x1 x2 : ℕ → Vec2) (root : ℝ) : Mat3 :=
  ⟨0, 0, asol x1 x2 root,
   0, 0, bsol x1 x2 root,
   csol x1 x2 root, dsol x1 x2 root, esol x1 x2 root⟩

/-- Source: `ThreePointsRelativePose`: appends the two candidates, for the roots
`d4_2 + tmp` then `d4_2 - tmp`, to the caller's list `E`. -/
noncomputable def ThreePointsRelativePose (x1 x2 : ℕ → Vec2) (E : List Mat3) :
    List Mat3 :=
  E ++ [ComputeEssentialMatrix x1 x2 (d4_2 x1 x2 + tmp x1 x2),
        ComputeEssentialMatrix x1 x2 (d4_2 x1 x2 - tmp x1 x2)]

/-- The orthographic epipolar residual of a matrix `M` on the `j`-th
correspondence: the bilinear form `(x1ⱼ.x, x1ⱼ.y, 1) · M · (x2ⱼ.x, x2ⱼ.y, 1)`
over the homogeneous 2D points (the linear relation the `esol` line of the
source enforces for `j = 0`). -/
def orthoRes (x1 x2 : ℕ → Vec2) (M : Mat3) (j : ℕ) : ℝ :=
  (x1 j).x * (M.e00 * (x2 j).x + M.e01 * (x2 j).y + M.e02)
  + (x1 j).y * (M.e10 * (x2 j).x + M.e11 * (x2 j).y + M.e12)
  + (M.e20 * (x2 j).x + M.e21 * (x2 j).y + M.e22)

/-! ### Upright three-point solver (`ThreePointUprightRelativePoseSolver::Solve`) -/

/-- Row `i` of the 3×4 action matrix `A`:
`( a.x·b.y, −a.z·b.y, −b.x·a.y, −b.z·a.y )` for the `i`-th correspondence. -/
def Arow (a b : Vec3) : Vec4 :=
  ⟨a.x * b.y, -(a.z * b.y), -(b.x * a.y), -(b.z * a.y)⟩

/-- The 3×4 action matrix, row by row (rows `0`, `1`, `2` are used). -/
def Amat (bearing_a bearing_b : ℕ → Vec3) (i : ℕ) : Vec4 :=
  Arow (bearing_a i) (bearing_b i)

/-- The 4×4 Gram matrix `AᵀA` handed to the eigen-decomposition. -/
def AtA (bearing_a bearing_b : ℕ → Vec3) (j k : Fin 4) : ℝ :=
  (Amat bearing_a bearing_b 0).get j * (Amat bearing_a bearing_b 0).get k
  + (Amat bearing_a bearing_b 1).get j * (Amat bearing_a bearing_b 1).get k
  + (Amat bearing_a bearing_b 2).get j * (Amat bearing_a bearing_b 2).get k

/-- Mapping of the nullspace 4-vector `n` into the structured essential
matrix: `E(0,1) = n2`, `E(1,0) = −n0`, `E(1,2) = n1`, `E(2,1) = n3`, all
other entries zero (the `Mat3::Zero()` followed by the four assignments). -/
def uprightE (n : Vec4) : Mat3 :=
  ⟨0, n.n2, 0,
   -n.n0, 0, n.n1,
   0, n.n3, 0⟩

/-- Source: `ThreePointUprightRelativePoseSolver::Solve`: builds `A`, hands `AᵀA` to
the eigen-decomposition `eig` (modelling Eigen's `SelfAdjointEigenSolver`
together with `eigenvectors().leftCols<1>()`), maps the selected vector into
the structured matrix and appends it to the caller's list. -/
def UprightSolve (bearing_a bearing_b : ℕ → Vec3)
    (eig : (Fin 4 → Fin 4 → ℝ) → Vec4) (pvec_E : List Mat3) : List Mat3 :=
  pvec_E ++ [uprightE (eig (AtA bearing_a bearing_b))]

/-- The upright epipolar residual `bᵀ · E · a` for one correspondence
(`a` in frame A, `b` in frame B). -/
def uprightRes (b : Vec3) (E : Mat3) (a : Vec3) : ℝ :=
  b.x * (E.e00 * a.x + E.e01 * a.y + E.e02 * a.z)
  + b.y * (E.e10 * a.x + E.e11 * a.y + E.e12 * a.z)
  + b.z * (E.e20 * a.x + E.e21 * a.y + E.e22 * a.z)


/-! ### Claims -/

/-- Claim C2: the upright solver appends `uprightE` of the selected nullspace
vector, and for every 4-vector `n` the structured matrix has exact zeros at
(0,0), (0,2), (1,1), (2,0), (2,2), with (0,1) = n2, (1,0) = -n0,
(1,2) = n1, (2,1) = n3 its only possibly nonzero entries. -/
theorem upright_zero_pattern (a b : ℕ → Vec3)
    (eig : (Fin 4 → Fin 4 → ℝ) → Vec4) (l : List Mat3) :
    UprightSolve a b eig l = l ++ [uprightE (eig (AtA a b))] ∧
    ∀ n : Vec4,
      (uprightE n).e00 = 0 ∧ (uprightE n).e02 = 0 ∧ (uprightE n).e11 = 0 ∧
      (uprightE n).e20 = 0 ∧ (uprightE n).e22 = 0 ∧
      (uprightE n).e01 = n.n2 ∧ (uprightE n).e10 = -n.n0 ∧
      (uprightE n).e12 = n.n1 ∧ (uprightE n).e21 = n.n3 :=
  ⟨rfl, fun _ => ⟨rfl, rfl, rfl, rfl, rfl, rfl, rfl, rfl, rfl⟩⟩

/-- Claim C1: for the matrix the upright solver appends, the epipolar residual
of the `i`-th correspondence equals minus the dot product of row `i` of the
action matrix `A` with the selected vector; hence when that vector is an exact
nontrivial nullspace vector of `A`, every correspondence satisfies
`bᵀ · E · a = 0`. -/
theorem upright_epipolar_of_nullspace (a b : ℕ → Vec3)
    (eig : (Fin 4 → Fin 4 → ℝ) → Vec4) :
    (∀ i : ℕ, uprightRes (b i) (uprightE (eig (AtA a b))) (a i)
        = - dot4 (Amat a b i) (eig (AtA a b))) ∧
    (eig (AtA a b) ≠ ⟨0, 0, 0, 0⟩ →
      (∀ i : ℕ, i < 3 → dot4 (Amat a b i) (eig (AtA a b)) = 0) →
      ∀ i : ℕ, i < 3 →
        uprightRes (b i) (uprightE (eig (AtA a b))) (a i) = 0) := by
  constructor
  · intro i
    unfold uprightRes uprightE dot4 Amat Arow
    ring
  · intro _ hnull i hi
    have hres : uprightRes (b i) (uprightE (eig (AtA a b))) (a i)
        = - dot4 (Amat a b i) (eig (AtA a b)) := by
      unfold uprightRes uprightE dot4 Amat Arow
      ring
    rw [hres, hnull i hi, neg_zero]

/-- Concrete bearing sample for witnesses: every column is `(1, 0, 0)`, so
every row of the action matrix is the zero 4-vector. -/
def wBear : ℕ → Vec3 := fun _ => ⟨1, 0, 0⟩

/-- Concrete eigen-decomposition stand-in for witnesses: always selects
`(1, 2, 3, 4)`. -/
def wEig : (Fin 4 → Fin 4 → ℝ) → Vec4 := fun _ => ⟨1, 2, 3, 4⟩

/-- Witness for C1 at a concrete input where the selected vector is a
nontrivial exact nullspace vector. -/
theorem upright_epipolar_of_nullspace_witness :
    uprightRes (wBear 0) (uprightE (wEig (AtA wBear wBear))) (wBear 0) = 0 := by
  refine (upright_epipolar_of_nullspace wBear wBear wEig).2 ?_ ?_ 0 (by norm_num)
  · intro hcon
    have h0 := congrArg Vec4.n0 hcon
    simp only [wEig] at h0
    norm_num at h0
  · intro i _
    simp only [wEig, Amat, Arow, wBear, dot4]
    norm_num

/-- Claim C3: in the orthographic solver, for every root the recovered
parameters satisfy `dsol = sqrt(-root / d4_4 / 2)`,
`asol = aac*csol + aad*dsol`, `bsol = bbc*csol + bbd*dsol`, and `esol` makes
the epipolar residual of the first correspondence exactly zero for the
assembled candidate matrix (in exact real arithmetic). -/
theorem ortho_parameter_recovery (x1 x2 : ℕ → Vec2) (root : ℝ) :
    dsol x1 x2 root = Real.sqrt (- root / d4_4 x1 x2 / 2) ∧
    asol x1 x2 root
      = aac x1 x2 * csol x1 x2 root + aad x1 x2 * dsol x1 x2 root ∧
    bsol x1 x2 root
      = bbc x1 x2 * csol x1 x2 root + bbd x1 x2 * dsol x1 x2 root ∧
    orthoRes x1 x2 (ComputeEssentialMatrix x1 x2 root) 0 = 0 := by
  refine ⟨rfl, rfl, rfl, ?_⟩
  unfold orthoRes ComputeEssentialMatrix esol
  ring

/-- Claim C4: each orthographic candidate has the fixed layout
row 0 = (0, 0, asol), row 1 = (0, 0, bsol), row 2 = (csol, dsol, esol) —
so (0,0), (0,1), (1,0), (1,1) are exactly zero — and the two candidates are
appended in the order root = `d4_2 + tmp` first, then root = `d4_2 - tmp`. -/
theorem ortho_layout_and_order (x1 x2 : ℕ → Vec2) (l : List Mat3) :
    (ThreePointsRelativePose x1 x2 l).drop l.length
      = [ComputeEssentialMatrix x1 x2 (d4_2 x1 x2 + tmp x1 x2),
         ComputeEssentialMatrix x1 x2 (d4_2 x1 x2 - tmp x1 x2)] ∧
    ∀ root : ℝ,
      (ComputeEssentialMatrix x1 x2 root).e00 = 0 ∧
      (ComputeEssentialMatrix x1 x2 root).e01 = 0 ∧
      (ComputeEssentialMatrix x1 x2 root).e10 = 0 ∧
      (ComputeEssentialMatrix x1 x2 root).e11 = 0 ∧
      (ComputeEssentialMatrix x1 x2 root).e02 = asol x1 x2 root ∧
      (ComputeEssentialMatrix x1 x2 root).e12 = bsol x1 x2 root ∧
      (ComputeEssentialMatrix x1 x2 root).e20 = csol x1 x2 root ∧
      (ComputeEssentialMatrix x1 x2 root).e21 = dsol x1 x2 root ∧
      (ComputeEssentialMatrix x1 x2 root).e22 = esol x1 x2 root := by
  constructor
  · unfold ThreePointsRelativePose
    exact List.drop_left l _
  · intro root
    exact ⟨rfl, rfl, rfl, rfl, rfl, rfl, rfl, rfl, rfl⟩

/-- Claim C9: the orthographic solver appends exactly two candidates
unconditionally, for every input (also degenerate or negative-discriminant
ones); the zero-candidate outcome never occurs. -/
theorem ortho_always_two (x1 x2 : ℕ → Vec2) (l : List Mat3) :
    (ThreePointsRelativePose x1 x2 l).length = l.length + 2 := by
  unfold ThreePointsRelativePose
  simp

/-- Claim C8: both solvers are append-only: the prior contents of the
caller-provided list are preserved unchanged at the front, and the new
candidates appear only after them. -/
theorem solvers_append_only (x1 x2 : ℕ → Vec2) (a b : ℕ → Vec3)
    (eig : (Fin 4 → Fin 4 → ℝ) → Vec4) (l : List Mat3) :
    ((ThreePointsRelativePose x1 x2 l).take l.length = l ∧
     ThreePointsRelativePose x1 x2 l = l ++ ThreePointsRelativePose x1 x2 []) ∧
    ((UprightSolve a b eig l).take l.length = l ∧
     UprightSolve a b eig l = l ++ UprightSolve a b eig []) := by
  refine ⟨⟨?_, ?_⟩, ⟨?_, ?_⟩⟩
  · unfold ThreePointsRelativePose
    exact List.take_left l _
  · unfold ThreePointsRelativePose
    simp
  · unfold UprightSolve
    exact List.take_left l _
  · unfold UprightSolve
    simp

/-- Claim C5: for a non-degenerate (`denom` nonzero), real-discriminant input
the orthographic solver appends exactly 2 candidates, and for every input the
upright solver appends exactly 1. -/
theorem solver_candidate_counts (x1 x2 : ℕ → Vec2) (a b : ℕ → Vec3)
    (eig : (Fin 4 → Fin 4 → ℝ) → Vec4) (l l2 : List Mat3)
    (hden : denom x1 ≠ 0) (hdisc : 0 ≤ disc x1 x2) :
    (ThreePointsRelativePose x1 x2 l).length = l.length + 2 ∧
    (UprightSolve a b eig l2).length = l2.length + 1 := by
  constructor
  · unfold ThreePointsRelativePose
    simp
  · unfold UprightSolve
    simp

/-- Concrete non-degenerate 2D sample for witnesses: columns 0, 1, 2 are
`(0,0)`, `(1,0)`, `(0,1)` (a non-collinear triangle, `denom = 1`). -/
def wPts : ℕ → Vec2 := fun n => if n = 0 then ⟨0, 0⟩ else if n = 1 then ⟨1, 0⟩ else ⟨0, 1⟩

/-- Witness for C5 at a concrete non-degenerate input with nonnegative
discriminant (the identity configuration, whose discriminant is zero). -/
theorem solver_candidate_counts_witness :
    (ThreePointsRelativePose wPts wPts ([] : List Mat3)).length
      = ([] : List Mat3).length + 2 ∧
    (UprightSolve wBear wBear wEig ([] : List Mat3)).length
      = ([] : List Mat3).length + 1 := by
  refine solver_candidate_counts wPts wPts wBear wBear wEig [] [] ?_ ?_
  · unfold denom xd1 yd1 wPts
    norm_num
  · unfold disc d4_2 d4_4 d4_0 dd_0 dd_1c dd_2 aac_sq aac aad bbc bbd denom
      xd1 yd1 xd2 yd2 wPts
    norm_num

/-- Claim C10: both solvers read only columns 0, 1, 2 of each input: input
pairs that agree on those columns yield identical appended candidates. -/
theorem solvers_first_three_columns (x1 x1' x2 x2' : ℕ → Vec2)
    (a a' b b' : ℕ → Vec3) (eig : (Fin 4 → Fin 4 → ℝ) → Vec4) (l : List Mat3)
    (h1 : ∀ i : ℕ, i < 3 → x1 i = x1' i) (h2 : ∀ i : ℕ, i < 3 → x2 i = x2' i)
    (ha : ∀ i : ℕ, i < 3 → a i = a' i) (hb : ∀ i : ℕ, i < 3 → b i = b' i) :
    ThreePointsRelativePose x1 x2 l = ThreePointsRelativePose x1' x2' l ∧
    UprightSolve a b eig l = UprightSolve a' b' eig l := by
  have e0 := h1 0 (by norm_num)
  have e1 := h1 1 (by norm_num)
  have e2 := h1 2 (by norm_num)
  have f0 := h2 0 (by norm_num)
  have f1 := h2 1 (by norm_num)
  have f2 := h2 2 (by norm_num)
  have hxd1 : xd1 x1 = xd1 x1' := by unfold xd1; rw [e0, e1]
  have hyd1 : yd1 x1 = yd1 x1' := by unfold yd1; rw [e0, e2]
  have hxd2 : xd2 x2 = xd2 x2' := by unfold xd2; rw [f0, f1]
  have hyd2 : yd2 x2 = yd2 x2' := by unfold yd2; rw [f0, f2]
  have hden : denom x1 = denom x1' := by unfold denom; rw [hxd1, hyd1]
  have haac : aac x1 x2 = aac x1' x2' := by
    unfold aac; rw [hxd1, hyd1, hxd2, hyd2, hden]
  have haad : aad x1 x2 = aad x1' x2' := by
    unfold aad; rw [hxd1, hyd1, hxd2, hyd2, hden]
  have hbbc : bbc x1 x2 = bbc x1' x2' := by
    unfold bbc; rw [hxd1, hyd1, hxd2, hyd2, hden]
  have hbbd : bbd x1 x2 = bbd x1' x2' := by
    unfold bbd; rw [hxd1, hyd1, hxd2, hyd2, hden]
  have haacsq : aac_sq x1 x2 = aac_sq x1' x2' := by unfold aac_sq; rw [haac]
  have hdd2 : dd_2 x1 x2 = dd_2 x1' x2' := by
    unfold dd_2; rw [haacsq, haad, hbbc, hbbd]
  have hdd1c : dd_1c x1 x2 = dd_1c x1' x2' := by
    unfold dd_1c; rw [haac, haad, hbbc, hbbd]
  have hdd0 : dd_0 x1 x2 = dd_0 x1' x2' := by unfold dd_0; rw [haacsq, hbbc]
  have hd44 : d4_4 x1 x2 = d4_4 x1' x2' := by unfold d4_4; rw [hdd1c, hdd2]
  have hd42 : d4_2 x1 x2 = d4_2 x1' x2' := by unfold d4_2; rw [hdd1c, hdd0, hdd2]
  have hd40 : d4_0 x1 x2 = d4_0 x1' x2' := by unfold d4_0; rw [hdd0]
  have hdisc : disc x1 x2 = disc x1' x2' := by unfold disc; rw [hd42, hd44, hd40]
  have htmp : tmp x1 x2 = tmp x1' x2' := by unfold tmp; rw [hdisc]
  have htcs : tmp_csol x1 x2 = tmp_csol x1' x2' := by
    unfold tmp_csol; rw [haacsq, haad, hbbc, hbbd]
  have hdsol : ∀ root : ℝ, dsol x1 x2 root = dsol x1' x2' root := by
    intro root; unfold dsol; rw [hd44]
  have hcsol : ∀ root : ℝ, csol x1 x2 root = csol x1' x2' root := by
    intro root; unfold csol; rw [htcs, hdsol, haacsq, hbbc, haac, haad, hbbd]
  have hasol : ∀ root : ℝ, asol x1 x2 root = asol x1' x2' root := by
    intro root; unfold asol; rw [haac, haad, hcsol, hdsol]
  have hbsol : ∀ root : ℝ, bsol x1 x2 root = bsol x1' x2' root := by
    intro root; unfold bsol; rw [hbbc, hbbd, hcsol, hdsol]
  have hesol : ∀ root : ℝ, esol x1 x2 root = esol x1' x2' root := by
    intro root; unfold esol; rw [hasol, hbsol, hcsol, hdsol, e0, f0]
  have hCEM : ∀ root : ℝ,
      ComputeEssentialMatrix x1 x2 root = ComputeEssentialMatrix x1' x2' root := by
    intro root
    unfold ComputeEssentialMatrix
    rw [hasol, hbsol, hcsol, hdsol, hesol]
  constructor
  · unfold ThreePointsRelativePose
    rw [hd42, htmp, hCEM, hCEM]
  · have hA : AtA a b = AtA a' b' := by
      funext j k
      unfold AtA Amat
      rw [ha 0 (by norm_num), ha 1 (by norm_num), ha 2 (by norm_num),
          hb 0 (by norm_num), hb 1 (by norm_num), hb 2 (by norm_num)]
    unfold UprightSolve
    rw [hA]

/-- Concrete 2D sample agreeing with `wPts` on columns 0, 1, 2 and differing
at column 3. -/
def wPts' : ℕ → Vec2 := fun n =>
  if n = 0 then ⟨0, 0⟩ else if n = 1 then ⟨1, 0⟩ else if n = 2 then ⟨0, 1⟩
  else ⟨5, 7⟩

/-- Concrete bearing sample agreeing with `wBear` on columns 0, 1, 2 and
differing at column 3. -/
def wBear' : ℕ → Vec3 := fun n => if n < 3 then ⟨1, 0, 0⟩ else ⟨2, 3, 4⟩

/-- Witness for C10 at concrete inputs that differ only from column 3 on. -/
theorem solvers_first_three_columns_witness :
    ThreePointsRelativePose wPts wPts ([] : List Mat3)
      = ThreePointsRelativePose wPts' wPts' ([] : List Mat3) ∧
    UprightSolve wBear wBear wEig ([] : List Mat3)
      = UprightSolve wBear' wBear' wEig ([] : List Mat3) := by
  have hp : ∀ i : ℕ, i < 3 → wPts i = wPts' i := by
    intro i hi
    interval_cases i <;> rfl
  have hq : ∀ i : ℕ, i < 3 → wBear i = wBear' i := by
    intro i hi
    unfold wBear wBear'
    rw [if_pos hi]
  exact solvers_first_three_columns wPts wPts' wPts wPts' wBear wBear'
    wBear wBear' wEig [] hp hp hq hq

/-- Three points of the real plane are collinear exactly when the 2D cross
product (determinant) of the two difference vectors from the first point
vanishes. -/
lemma collinear_iff_cross (p0 p1 p2 : ℝ × ℝ) :
    Collinear ℝ ({p0, p1, p2} : Set (ℝ × ℝ)) ↔
      (p1.1 - p0.1) * (p2.2 - p0.2) - (p1.2 - p0.2) * (p2.1 - p0.1) = 0 := by
  rw [collinear_iff_of_mem (Set.mem_insert p0 {p1, p2})]
  constructor
  · rintro ⟨v, hv⟩
    obtain ⟨r1, hr1⟩ := hv p1 (by simp)
    obtain ⟨r2, hr2⟩ := hv p2 (by simp)
    rw [hr1, hr2]
    simp only [vadd_eq_add, Prod.fst_add, Prod.snd_add, Prod.smul_fst,
      Prod.smul_snd, smul_eq_mul]
    ring
  · intro h
    by_cases hu1 : p1.1 - p0.1 = 0
    · by_cases hu2 : p1.2 - p0.2 = 0
      · refine ⟨p2 - p0, ?_⟩
        intro p hp
        simp only [Set.mem_insert_iff, Set.mem_singleton_iff] at hp
        rcases hp with hp | hp | hp
        · rw [hp]
          exact ⟨0, by simp⟩
        · rw [hp]
          refine ⟨0, ?_⟩
          have hp1 : p1 = p0 := Prod.ext (by linarith) (by linarith)
          rw [hp1]
          simp
        · rw [hp]
          exact ⟨1, by simp⟩
      · refine ⟨p1 - p0, ?_⟩
        intro p hp
        simp only [Set.mem_insert_iff, Set.mem_singleton_iff] at hp
        rcases hp with hp | hp | hp
        · rw [hp]
          exact ⟨0, by simp⟩
        · rw [hp]
          exact ⟨1, by simp⟩
        · rw [hp]
          refine ⟨(p2.2 - p0.2) / (p1.2 - p0.2), Prod.ext ?_ ?_⟩
          · simp only [vadd_eq_add, Prod.fst_add, Prod.smul_fst, smul_eq_mul,
              Prod.fst_sub]
            rw [hu1] at h ⊢
            have hz : (p1.2 - p0.2) * (p2.1 - p0.1) = 0 := by linarith
            rcases mul_eq_zero.mp hz with hc | hc
            · exact absurd hc hu2
            · have : p2.1 = p0.1 := by linarith
              rw [this]
              ring
          · simp only [vadd_eq_add, Prod.snd_add, Prod.smul_snd, smul_eq_mul,
              Prod.snd_sub]
            field_simp
    · refine ⟨p1 - p0, ?_⟩
      intro p hp
      simp only [Set.mem_insert_iff, Set.mem_singleton_iff] at hp
      rcases hp with hp | hp | hp
      · rw [hp]
        exact ⟨0, by simp⟩
      · rw [hp]
        exact ⟨1, by simp⟩
      · rw [hp]
        refine ⟨(p2.1 - p0.1) / (p1.1 - p0.1), Prod.ext ?_ ?_⟩
        · simp only [vadd_eq_add, Prod.fst_add, Prod.smul_fst, smul_eq_mul,
            Prod.fst_sub]
          field_simp
        · simp only [vadd_eq_add, Prod.snd_add, Prod.smul_snd, smul_eq_mul,
            Prod.snd_sub]
          field_simp
          linear_combination h

/-- Claim C6: `denom` is the 2D cross product of the first-image difference
vectors, it vanishes exactly when the three first-image points are collinear,
and each of `aac`, `aad`, `bbc`, `bbd` is the stated cross-product combination
divided by `denom`. -/
theorem denom_cross_and_collinearity (x1 x2 : ℕ → Vec2) :
    denom x1 = (xd1 x1).x * (yd1 x1).y - (xd1 x1).y * (yd1 x1).x ∧
    (denom x1 = 0 ↔
      Collinear ℝ ({((x1 0).x, (x1 0).y), ((x1 1).x, (x1 1).y),
                    ((x1 2).x, (x1 2).y)} : Set (ℝ × ℝ))) ∧
    aac x1 x2 = ((xd1 x1).y * (yd2 x2).x - (xd2 x2).x * (yd1 x1).y) / denom x1 ∧
    aad x1 x2 = ((xd1 x1).y * (yd2 x2).y - (xd2 x2).y * (yd1 x1).y) / denom x1 ∧
    bbc x1 x2 = ((xd2 x2).x * (yd1 x1).x - (xd1 x1).x * (yd2 x2).x) / denom x1 ∧
    bbd x1 x2 = ((xd2 x2).y * (yd1 x1).x - (xd1 x1).x * (yd2 x2).y) / denom x1 := by
  refine ⟨rfl, ?_, rfl, rfl, rfl, rfl⟩
  rw [collinear_iff_cross]
  exact Iff.rfl

end openMVG
